import Mathlib

/-!
# custom_branding: title poller and dialog title patch

A shallow embedding of the two scripts of the `custom_branding` module,

* `static/src/js/early_title_fix.js` (the title poller), and
* `static/src/js/hide_mail_odoo_title.js` (the patch of `Dialog.prototype.setup`),

followed by the properties proved about them.

Modelling conventions.

* A JavaScript string is its sequence of UTF-16 code units (`JSString`), so that
  strings with lone surrogates are covered as well; string literals of the source are
  written with `lit`.
* `document.title` is a mutable string cell: `title` is the value the getter returns.
* The browser event loop is a list of events handled one at a time (`Event`, `run`).
* The counter `attempts` is a natural number: it starts at `0`, is only changed by
  `attempts++`, and stays far below `2 ^ 53`, where JavaScript numbers are exact.
-/

namespace CustomBranding

/-! ## JavaScript strings -/

/-- A JavaScript string: the list of its UTF-16 code units. -/
abbrev JSString := List Nat

/-- The code units of a string literal of the source (all literals there are ASCII). -/
def lit (s : String) : JSString := s.toList.map Char.toNat

/-- The method `String.prototype.includes(searchString)` with the default position `0`:
`true` exactly when `pat` occurs in `s` as a contiguous run of code units starting at
some index `k` with `0 ≤ k ≤ s.length - pat.length`. -/
def includes : JSString → JSString → Bool
  | [], pat => pat.isEmpty
  | c :: cs, pat => pat.isPrefixOf (c :: cs) || includes cs pat

/-! ## early_title_fix.js -/

/-- Line 3: `const BRAND = "Dreamwarez";` -/
def BRAND : JSString := lit "Dreamwarez"

/-- Line 10: `const maxAttempts = 50;` -/
def maxAttempts : Nat := 50

/-- The state the script reads and writes: `document.title`, the module variable
`attempts`, and whether the interval created by `setInterval(fixTitle, 40)` is still
scheduled (`clearInterval(timer)` has not been called). -/
structure PageState where
  title : JSString
  attempts : Nat
  timerActive : Bool
  deriving DecidableEq, Repr

/-- Lines 12-20, the body of `fixTitle`:
```
if (document.title.includes("Odoo")) { document.title = BRAND; }
attempts++;
if (attempts >= maxAttempts) { clearInterval(timer); }
```
-/
def fixTitle (s : PageState) : PageState :=
  let s1 : PageState :=
    if includes s.title (lit "Odoo") then { s with title := BRAND } else s
  let s2 : PageState := { s1 with attempts := s1.attempts + 1 }
  if s2.attempts ≥ maxAttempts then { s2 with timerActive := false } else s2

/-- Lines 25-27, the `DOMContentLoaded` listener: `document.title = BRAND;` -/
def onDOMContentLoaded (s : PageState) : PageState :=
  { s with title := BRAND }

/-- The top level of the module, run once when the script is loaded in a document whose
title is `before`: line 6 `document.title = BRAND;`, line 9 `let attempts = 0;`, line 22
`const timer = setInterval(fixTitle, 40);`. (Line 25 registers the listener, which is
the event `Event.domContentLoaded` below.) -/
def moduleInit (before : JSString) : PageState :=
  let s0 : PageState := { title := before, attempts := 0, timerActive := false }
  let s1 : PageState := { s0 with title := BRAND }
  let s2 : PageState := { s1 with attempts := 0 }
  { s2 with timerActive := true }

/-- What the event loop can deliver to the page after the module has been loaded. -/
inductive Event where
  /-- One period (40 ms) of the interval has elapsed. -/
  | tick
  /-- The host page assigns `document.title`. -/
  | hostSetTitle (t : JSString)
  /-- The `DOMContentLoaded` event is dispatched. -/
  | domContentLoaded
  deriving DecidableEq, Repr

/-- Handling of one event. An interval that has been cleared no longer calls its
callback, so `tick` runs `fixTitle` only while the timer is active. -/
def step (s : PageState) : Event → PageState
  | Event.tick => if s.timerActive then fixTitle s else s
  | Event.hostSetTitle t => { s with title := t }
  | Event.domContentLoaded => onDOMContentLoaded s

/-- Handling of a sequence of events, oldest first. -/
def run (s : PageState) : List Event → PageState
  | [] => s
  | e :: es => run (step s e) es

/-- Number of calls of `fixTitle` made while handling a sequence of events. -/
def fixTitleCalls (s : PageState) : List Event → Nat
  | [] => 0
  | e :: es =>
    (if e = Event.tick ∧ s.timerActive = true then 1 else 0) + fixTitleCalls (step s e) es

/-- Number of elapsed interval periods in a sequence of events. -/
def ticks (es : List Event) : Nat := es.count Event.tick

/-! ## hide_mail_odoo_title.js -/

/-- A value read from `this.props.title`: `undefined` when the prop is absent, a
string, or a value of any other type (`null`, a boolean, a number, an object, ...),
kept abstract as `other`. -/
inductive JSValue where
  | undefined
  | string (s : JSString)
  | other (ref : Nat)
  deriving DecidableEq, Repr

/-- The comparison `v === "..."` against a string: strict equality is `false` when the
two operands differ in type, and compares the code units of two strings. -/
def strictEqualsString : JSValue → JSString → Bool
  | JSValue.string s, t => s == t
  | JSValue.undefined, _ => false
  | JSValue.other _, _ => false

/-- The object `this.props` of a dialog: the field `title` and all other props. -/
structure Props (P : Type) where
  title : JSValue
  others : P

/-- A dialog component instance as `setup` sees it: its props and everything else the
original `setup` can read or write. -/
structure Dialog (P C : Type) where
  props : Props P
  others : C

/-- Lines 11-13, the statement after `super.setup();`:
```
if (this.props.title === "Odoo") { this.props.title = "DREAMWAREZ"; }
```
-/
def titleOverride {P C : Type} (this : Dialog P C) : Dialog P C :=
  if strictEqualsString this.props.title (lit "Odoo") then
    { this with props := { this.props with title := JSValue.string (lit "DREAMWAREZ") } }
  else this

/-- The observable actions of one run of the patched `setup`. -/
inductive SetupAction where
  /-- The call `super.setup()`. -/
  | superSetup
  /-- The evaluation of `this.props.title === "Odoo"`. -/
  | titleTest
  /-- The assignment `this.props.title = "DREAMWAREZ"`. -/
  | titleAssign
  deriving DecidableEq, Repr

/-- A run of `setup`: the dialog reached and the actions performed so far. -/
structure Exec (P C : Type) where
  this : Dialog P C
  trace : List SetupAction

/-- Lines 7-14, the method `setup` installed on `Dialog.prototype` by `patch`, where
`superSetup` is the method it replaces:
```
setup() {
    super.setup();
    if (this.props.title === "Odoo") { this.props.title = "DREAMWAREZ"; }
}
```
-/
def setup {P C : Type} (superSetup : Dialog P C → Dialog P C) (this : Dialog P C) :
    Exec P C :=
  let e1 : Exec P C := { this := superSetup this, trace := [SetupAction.superSetup] }
  let e2 : Exec P C := { e1 with trace := e1.trace ++ [SetupAction.titleTest] }
  if strictEqualsString e2.this.props.title (lit "Odoo") then
    { this := { e2.this with
        props := { e2.this.props with title := JSValue.string (lit "DREAMWAREZ") } },
      trace := e2.trace ++ [SetupAction.titleAssign] }
  else e2

/-! ## The patched setup as the specification words it -/

/-- The patched setup in the words of the specification: the original initialization
logic runs first, then the override is applied. -/
def setupSpec {P C : Type} (superSetup : Dialog P C → Dialog P C) :
    Dialog P C → Dialog P C :=
  titleOverride ∘ superSetup

/-! ## Facts about the embedding -/

theorem includes_iff_infix (s pat : JSString) : includes s pat = true ↔ pat <:+: s := by
  induction s with
  | nil => simp [includes, List.isEmpty_iff]
  | cons c cs ih =>
    simp only [includes, Bool.or_eq_true, ih, List.isPrefixOf_iff_prefix]
    rw [List.infix_cons_iff]

theorem strictEqualsString_iff (v : JSValue) (t : JSString) :
    strictEqualsString v t = true ↔ v = JSValue.string t := by
  cases v <;> simp [strictEqualsString]

theorem brand_excludes_odoo : includes BRAND (lit "Odoo") = false := by decide

theorem fixTitle_title (s : PageState) :
    (fixTitle s).title = if includes s.title (lit "Odoo") then BRAND else s.title := by
  unfold fixTitle
  by_cases h : includes s.title (lit "Odoo") = true <;>
    by_cases k : s.attempts + 1 ≥ maxAttempts <;> simp [h, k]

theorem fixTitle_attempts (s : PageState) : (fixTitle s).attempts = s.attempts + 1 := by
  unfold fixTitle
  by_cases h : includes s.title (lit "Odoo") = true <;>
    by_cases k : s.attempts + 1 ≥ maxAttempts <;> simp [h, k]

theorem fixTitle_timerActive (s : PageState) :
    (fixTitle s).timerActive = (s.timerActive && decide (s.attempts + 1 < maxAttempts)) := by
  unfold fixTitle
  by_cases h : includes s.title (lit "Odoo") = true <;>
    by_cases k : s.attempts + 1 ≥ maxAttempts <;> simp [h, k] <;> omega

/-- The invariant of the poller, `attempts ≤ maxAttempts` and the timer being active
exactly while `attempts < maxAttempts`, determines the state after any events. -/
theorem run_counts (es : List Event) :
    ∀ s : PageState, s.attempts ≤ maxAttempts →
      (s.timerActive = true ↔ s.attempts < maxAttempts) →
      (run s es).attempts = min (s.attempts + ticks es) maxAttempts ∧
      ((run s es).timerActive = true ↔ s.attempts + ticks es < maxAttempts) ∧
      s.attempts + fixTitleCalls s es = min (s.attempts + ticks es) maxAttempts := by
  induction es with
  | nil =>
    intro s h1 h2
    simp [run, ticks, fixTitleCalls, h1, h2]
  | cons e es ih =>
    intro s h1 h2
    cases e with
    | tick =>
      by_cases ha : s.timerActive = true
      · have hlt : s.attempts < maxAttempts := h2.mp ha
        have h := ih (fixTitle s) (by rw [fixTitle_attempts]; exact hlt)
          (by rw [fixTitle_timerActive, fixTitle_attempts]; simp [ha])
        rw [fixTitle_attempts] at h
        simp only [run, step, ha, if_true, fixTitleCalls, ticks, List.count_cons_self,
          and_self] at h ⊢
        simp only [maxAttempts] at *
        obtain ⟨a1, a2, a3⟩ := h
        refine ⟨by omega, ?_, by omega⟩
        rw [a2]; omega
      · have hge : s.attempts = maxAttempts := by
          have : ¬ s.attempts < maxAttempts := fun k => ha (h2.mpr k)
          omega
        have hs : step s Event.tick = s := by simp [step, ha]
        have h := ih s h1 h2
        simp only [run, hs, fixTitleCalls, ticks, List.count_cons_self, ha, and_false,
          if_false] at h ⊢
        simp only [maxAttempts] at *
        obtain ⟨a1, a2, a3⟩ := h
        refine ⟨by omega, ?_, by simp; omega⟩
        rw [a2]; omega
    | hostSetTitle t =>
      have h := ih (step s (Event.hostSetTitle t)) h1 h2
      simp only [step] at h
      simp only [run, step, fixTitleCalls, ticks, List.count_cons, false_and, if_false] at h ⊢
      simpa using h
    | domContentLoaded =>
      have h := ih (step s Event.domContentLoaded) h1 h2
      simp only [step, onDOMContentLoaded] at h
      simp only [run, step, onDOMContentLoaded, fixTitleCalls, ticks, List.count_cons,
        false_and, if_false] at h ⊢
      simpa using h

/-- Once the timer has been cleared, no event sequence reactivates it or calls
`fixTitle` again. -/
theorem stopped_stays (es : List Event) :
    ∀ s : PageState, s.timerActive = false →
      (run s es).timerActive = false ∧ (run s es).attempts = s.attempts ∧
      fixTitleCalls s es = 0 := by
  induction es with
  | nil => intro s h; simp [run, fixTitleCalls, h]
  | cons e es ih =>
    intro s h
    cases e with
    | tick =>
      have hs : step s Event.tick = s := by simp [step, h]
      simpa [run, fixTitleCalls, hs, h] using ih s h
    | hostSetTitle t =>
      simpa [run, fixTitleCalls, step] using ih (step s (Event.hostSetTitle t)) h
    | domContentLoaded =>
      simpa [run, fixTitleCalls, step, onDOMContentLoaded] using
        ih (step s Event.domContentLoaded) h

theorem run_host_then_ticks_stopped (s : PageState) (h : s.timerActive = false)
    (u : JSString) (k : Nat) :
    run s (Event.hostSetTitle u :: List.replicate k Event.tick) =
      { s with title := u } := by
  simp only [run, step]
  induction k with
  | zero => rfl
  | succ k ih => simpa [List.replicate_succ, run, step, h] using ih

theorem titleOverride_of_eq {P C : Type} (d : Dialog P C)
    (h : d.props.title = JSValue.string (lit "Odoo")) :
    titleOverride d =
      { d with props := { d.props with title := JSValue.string (lit "DREAMWAREZ") } } := by
  simp [titleOverride, h, strictEqualsString]

theorem titleOverride_of_ne {P C : Type} (d : Dialog P C)
    (h : d.props.title ≠ JSValue.string (lit "Odoo")) : titleOverride d = d := by
  have k : strictEqualsString d.props.title (lit "Odoo") = false := by
    rw [Bool.eq_false_iff, Ne, strictEqualsString_iff]; exact h
  simp [titleOverride, k]

theorem setup_this {P C : Type} (superSetup : Dialog P C → Dialog P C) (d : Dialog P C) :
    (setup superSetup d).this = titleOverride (superSetup d) := by
  unfold setup titleOverride
  by_cases h : strictEqualsString (superSetup d).props.title (lit "Odoo") = true <;>
    simp [h]

theorem setup_trace {P C : Type} (superSetup : Dialog P C → Dialog P C) (d : Dialog P C) :
    (setup superSetup d).trace =
      SetupAction.superSetup :: SetupAction.titleTest ::
        (if strictEqualsString (superSetup d).props.title (lit "Odoo") then
          [SetupAction.titleAssign] else []) := by
  unfold setup
  by_cases h : strictEqualsString (superSetup d).props.title (lit "Odoo") = true <;>
    simp [h]

theorem renamed_ne_vendor :
    JSValue.string (lit "DREAMWAREZ") ≠ JSValue.string (lit "Odoo") := by decide

theorem titleOverride_title_ne {P C : Type} (d : Dialog P C) :
    (titleOverride d).props.title ≠ JSValue.string (lit "Odoo") := by
  by_cases h : d.props.title = JSValue.string (lit "Odoo")
  · rw [titleOverride_of_eq d h]; exact renamed_ne_vendor
  · rw [titleOverride_of_ne d h]; exact h

/-- The titles the specification lists as not matching are all different from the
string `"Odoo"`, and so is an absent title. -/
theorem listed_titles_ne_vendor :
    JSValue.string (lit "Anything Else") ≠ JSValue.string (lit "Odoo") ∧
    JSValue.string (lit "odoo") ≠ JSValue.string (lit "Odoo") ∧
    JSValue.string (lit "Odoo - Dashboard") ≠ JSValue.string (lit "Odoo") ∧
    JSValue.string (lit "") ≠ JSValue.string (lit "Odoo") ∧
    JSValue.undefined ≠ JSValue.string (lit "Odoo") := by decide

/-- The titles the specification lists as not matching do not contain the code units
of `"Odoo"`. -/
theorem listed_titles_exclude_vendor :
    includes (lit "odoo") (lit "Odoo") = false ∧
    includes (lit "ODOO") (lit "Odoo") = false ∧
    includes (lit "My App") (lit "Odoo") = false ∧
    includes (lit "") (lit "Odoo") = false := by decide

/-! ## The title poller -/

/-- C1: for every title `t` containing `"Odoo"` and every attempt count `a < 50` (timer
still active), one call of `fixTitle` on the state with title `t` and `a` attempts
leaves the title exactly `"Dreamwarez"`; so does the interval tick that makes the call,
and so does the next tick whenever the page shows `t` after `a` earlier ticks. -/
theorem fixTitle_overwrites_vendor_title (t : JSString) (a : Nat)
    (ht : includes t (lit "Odoo") = true) (ha : a < 50) :
    (fixTitle { title := t, attempts := a, timerActive := true }).title
        = lit "Dreamwarez" ∧
      (step { title := t, attempts := a, timerActive := true } Event.tick).title
        = lit "Dreamwarez" ∧
      ∀ (t0 : JSString) (es : List Event), ticks es = a →
        (step (step (run { title := t0, attempts := 0, timerActive := true } es)
          (Event.hostSetTitle t)) Event.tick).title = lit "Dreamwarez" := by
  refine ⟨by simp [fixTitle_title, ht, BRAND], by simp [step, fixTitle_title, ht, BRAND], ?_⟩
  intro t0 es hes
  obtain ⟨_, h2, _⟩ := run_counts es { title := t0, attempts := 0, timerActive := true }
    (by simp) (by simp [maxAttempts])
  have hon : (run { title := t0, attempts := 0, timerActive := true } es).timerActive
      = true := by
    rw [h2]; simp only [maxAttempts]; omega
  simp [step, hon, fixTitle_title, ht, BRAND]

theorem fixTitle_overwrites_vendor_title_witness :
    includes (lit "Odoo - Dashboard") (lit "Odoo") = true ∧ 49 < 50 ∧
      (fixTitle
          { title := lit "Odoo - Dashboard", attempts := 49, timerActive := true }).title
        = lit "Dreamwarez" ∧
      (step { title := lit "Odoo - Dashboard", attempts := 49, timerActive := true }
          Event.tick).title = lit "Dreamwarez" :=
  ⟨by decide, by decide,
    (fixTitle_overwrites_vendor_title (lit "Odoo - Dashboard") 49 (by decide) (by decide)).1,
    (fixTitle_overwrites_vendor_title (lit "Odoo - Dashboard") 49 (by decide)
      (by decide)).2.1⟩

/-- C2: for every sequence of events (interval ticks interleaved with title changes by
the host and the `DOMContentLoaded` event) handled from a state with `attempts = 0` and
the timer active: the timer is still active afterwards exactly when fewer than 50 ticks
have elapsed; `fixTitle` has been called `min n 50` times for `n` ticks, which is also
the value of `attempts`, so the counter never exceeds 50; and once 50 ticks have elapsed
no later event sequence calls `fixTitle`, and a title the host sets afterwards, whether
or not it contains `"Odoo"`, is still there after any number of further ticks. -/
theorem poller_stops_after_fifty_ticks (t : JSString) (es : List Event) :
    ((run { title := t, attempts := 0, timerActive := true } es).timerActive = true
        ↔ ticks es < 50) ∧
      fixTitleCalls { title := t, attempts := 0, timerActive := true } es
        = min (ticks es) 50 ∧
      (run { title := t, attempts := 0, timerActive := true } es).attempts
        = min (ticks es) 50 ∧
      (run { title := t, attempts := 0, timerActive := true } es).attempts ≤ 50 ∧
      (50 ≤ ticks es → ∀ (later : List Event) (u : JSString) (k : Nat),
        fixTitleCalls (run { title := t, attempts := 0, timerActive := true } es) later
          = 0 ∧
        (run (run { title := t, attempts := 0, timerActive := true } es)
          (Event.hostSetTitle u :: List.replicate k Event.tick)).title = u) := by
  obtain ⟨h1, h2, h3⟩ := run_counts es { title := t, attempts := 0, timerActive := true }
    (by simp) (by simp [maxAttempts])
  simp only [maxAttempts, Nat.zero_add] at h1 h2 h3
  refine ⟨h2, h3, h1, by rw [h1]; exact Nat.min_le_right _ _, ?_⟩
  intro h50 later u k
  have hoff : (run { title := t, attempts := 0, timerActive := true } es).timerActive
      = false := by
    rw [← Bool.not_eq_true, h2]; omega
  exact ⟨(stopped_stays later _ hoff).2.2, by rw [run_host_then_ticks_stopped _ hoff]⟩

theorem poller_stops_after_fifty_ticks_witness :
    50 ≤ ticks (List.replicate 50 Event.tick) ∧
      fixTitleCalls
        (run { title := lit "Dreamwarez", attempts := 0, timerActive := true }
          (List.replicate 50 Event.tick))
        [Event.tick, Event.hostSetTitle (lit "Odoo"), Event.tick] = 0 ∧
      (run (run { title := lit "Dreamwarez", attempts := 0, timerActive := true }
          (List.replicate 50 Event.tick))
        (Event.hostSetTitle (lit "Odoo") :: List.replicate 3 Event.tick)).title
        = lit "Odoo" :=
  ⟨by decide,
    (poller_stops_after_fifty_ticks (lit "Dreamwarez") (List.replicate 50 Event.tick)).2.2.2.2
      (by decide) [Event.tick, Event.hostSetTitle (lit "Odoo"), Event.tick] (lit "Odoo") 3⟩

/-- C3: for every prior state (any title, any attempt count, timer active or stopped),
the `DOMContentLoaded` handler leaves the title exactly `"Dreamwarez"` and leaves the
attempt counter and the status of the timer unchanged. -/
theorem onDOMContentLoaded_sets_brand (t : JSString) (a : Nat) (active : Bool) :
    step { title := t, attempts := a, timerActive := active } Event.domContentLoaded
      = { title := lit "Dreamwarez", attempts := a, timerActive := active } := by
  rfl

/-- C4: for every title the document had before the script ran, the state right after
the top level of the module has run, before any tick, has title exactly `"Dreamwarez"`,
attempt counter `0` and the timer active; no call of `fixTitle` has been made. -/
theorem moduleInit_state (before : JSString) :
    moduleInit before = { title := lit "Dreamwarez", attempts := 0, timerActive := true } ∧
      fixTitleCalls (moduleInit before) [] = 0 := by
  exact ⟨rfl, rfl⟩

/-- C8: for every title `t` that does not contain the code units of `"Odoo"` and every
attempt count `a`, one call of `fixTitle` leaves the title equal to `t`; and for every
title, matching or not, the call increases the attempt counter by exactly 1. -/
theorem fixTitle_frame (t : JSString) (a : Nat) (active : Bool) :
    (includes t (lit "Odoo") = false →
        (fixTitle { title := t, attempts := a, timerActive := active }).title = t) ∧
      (fixTitle { title := t, attempts := a, timerActive := active }).attempts = a + 1 := by
  refine ⟨fun h => ?_, by rw [fixTitle_attempts]⟩
  rw [fixTitle_title]; simp [h]

theorem fixTitle_frame_witness :
    includes (lit "odoo") (lit "Odoo") = false ∧
      (fixTitle { title := lit "odoo", attempts := 7, timerActive := true }).title
        = lit "odoo" ∧
      (fixTitle { title := lit "odoo", attempts := 7, timerActive := true }).attempts
        = 7 + 1 :=
  ⟨by decide, (fixTitle_frame (lit "odoo") 7 true).1 (by decide),
    (fixTitle_frame (lit "odoo") 7 true).2⟩

/-- C9: for every state, the title left by one call of `fixTitle` does not contain
`"Odoo"` (the constant `"Dreamwarez"` does not contain it), and a second call right
after the first leaves the title unchanged. -/
theorem fixTitle_result_excludes_vendor (s : PageState) :
    includes (lit "Dreamwarez") (lit "Odoo") = false ∧
      includes (fixTitle s).title (lit "Odoo") = false ∧
      (fixTitle (fixTitle s)).title = (fixTitle s).title := by
  have hb : includes (lit "Dreamwarez") (lit "Odoo") = false := by decide
  have h : includes (fixTitle s).title (lit "Odoo") = false := by
    rw [fixTitle_title]
    by_cases k : includes s.title (lit "Odoo") = true
    · simpa [k, BRAND] using hb
    · simp [k]
  refine ⟨hb, h, ?_⟩
  rw [fixTitle_title (fixTitle s)]; simp [h]

/-! ## The dialog title patch -/

/-- C5: for every original setup routine and every dialog whose `props.title` equals
exactly `"Odoo"` once the original setup has run, the patched `setup` leaves the dialog
with `props.title` equal to exactly `"DREAMWAREZ"`. -/
theorem setup_renames_vendor_title {P C : Type} (superSetup : Dialog P C → Dialog P C)
    (d : Dialog P C) (h : (superSetup d).props.title = JSValue.string (lit "Odoo")) :
    (setup superSetup d).this.props.title = JSValue.string (lit "DREAMWAREZ") := by
  rw [setup_this, titleOverride_of_eq _ h]

theorem setup_renames_vendor_title_witness :
    (id (Dialog.mk (Props.mk (JSValue.string (lit "Odoo")) ()) ())).props.title
        = JSValue.string (lit "Odoo") ∧
      (setup id (Dialog.mk (Props.mk (JSValue.string (lit "Odoo")) ()) ())).this.props.title
        = JSValue.string (lit "DREAMWAREZ") :=
  ⟨rfl, setup_renames_vendor_title id _ rfl⟩

/-- C6: for every dialog whose `props.title`, once the original setup has run, is
anything other than exactly the string `"Odoo"`, the title override leaves the dialog,
and so `props.title`, exactly as it was: the patched `setup` ends in the state the
original setup produced and performs no assignment. -/
theorem titleOverride_keeps_other_titles {P C : Type}
    (superSetup : Dialog P C → Dialog P C) (d : Dialog P C)
    (h : (superSetup d).props.title ≠ JSValue.string (lit "Odoo")) :
    titleOverride (superSetup d) = superSetup d ∧
      (setup superSetup d).this = superSetup d ∧
      (setup superSetup d).trace = [SetupAction.superSetup, SetupAction.titleTest] := by
  have k : strictEqualsString (superSetup d).props.title (lit "Odoo") = false := by
    rw [Bool.eq_false_iff, Ne, strictEqualsString_iff]; exact h
  refine ⟨titleOverride_of_ne _ h, ?_, ?_⟩
  · rw [setup_this, titleOverride_of_ne _ h]
  · rw [setup_trace]; simp [k]

theorem titleOverride_keeps_other_titles_witness :
    (id (Dialog.mk (Props.mk (JSValue.string (lit "Odoo - Dashboard")) ()) ())).props.title
        ≠ JSValue.string (lit "Odoo") ∧
      (setup id
          (Dialog.mk (Props.mk (JSValue.string (lit "Odoo - Dashboard")) ()) ())).this
        = Dialog.mk (Props.mk (JSValue.string (lit "Odoo - Dashboard")) ()) () :=
  ⟨by decide,
    (titleOverride_keeps_other_titles id
      (Dialog.mk (Props.mk (JSValue.string (lit "Odoo - Dashboard")) ()) ())
      (by decide)).2.1⟩

/-- C7: for every original setup routine `superSetup`, the dialog the patched `setup`
ends in is the title override applied to the result of `superSetup`, which is the
patched setup as the specification words it; `superSetup` is called exactly once, as
the first action and before the title test; and every part of the dialog other than
`props.title` is exactly what `superSetup` alone produced. -/
theorem setup_refines_setupSpec {P C : Type} (superSetup : Dialog P C → Dialog P C)
    (d : Dialog P C) :
    (setup superSetup d).this = setupSpec superSetup d ∧
      (setup superSetup d).trace.count SetupAction.superSetup = 1 ∧
      (∃ rest, (setup superSetup d).trace
          = SetupAction.superSetup :: SetupAction.titleTest :: rest ∧
        SetupAction.superSetup ∉ rest) ∧
      (setup superSetup d).this.others = (superSetup d).others ∧
      (setup superSetup d).this.props.others = (superSetup d).props.others := by
  have ht := setup_trace superSetup d
  have hs := setup_this superSetup d
  refine ⟨hs, ?_, ⟨_, ht, ?_⟩, ?_, ?_⟩
  · rw [ht]; by_cases k : strictEqualsString (superSetup d).props.title (lit "Odoo") = true <;>
      simp [k]
  · by_cases k : strictEqualsString (superSetup d).props.title (lit "Odoo") = true <;>
      simp [k]
  · rw [hs]; unfold titleOverride
    by_cases k : strictEqualsString (superSetup d).props.title (lit "Odoo") = true <;>
      simp [k]
  · rw [hs]; unfold titleOverride
    by_cases k : strictEqualsString (superSetup d).props.title (lit "Odoo") = true <;>
      simp [k]

/-- C10: for every dialog, the title left by the override, and so by the patched
`setup`, is never the string `"Odoo"`, and applying the override to its own result
changes nothing. -/
theorem titleOverride_idempotent {P C : Type} (superSetup : Dialog P C → Dialog P C)
    (d : Dialog P C) :
    (titleOverride d).props.title ≠ JSValue.string (lit "Odoo") ∧
      titleOverride (titleOverride d) = titleOverride d ∧
      (setup superSetup d).this.props.title ≠ JSValue.string (lit "Odoo") := by
  refine ⟨titleOverride_title_ne d, titleOverride_of_ne _ (titleOverride_title_ne d), ?_⟩
  rw [setup_this]; exact titleOverride_title_ne _

end CustomBranding
